import Mathlib

/- Verification of the constant-evaluation core (eval_queries) against its
specification: the value model, the place-to-constant conversion op_to_const,
the evaluation driver, the validator driver and the report builders. -/

namespace CE

/-- Modelled from the spec, section 3: a stable handle naming an Allocation. -/
abbrev AllocId := Nat

/-- Modelled from the spec, section 3: mutability of a static allocation. -/
inductive Mutability
  | not
  | mut
deriving DecidableEq

/-- Modelled from the spec, section 3: a Pointer is an optional provenance plus a
byte offset. -/
structure Pointer where
  prov : Option AllocId
  offset : Nat
deriving DecidableEq

/-- Modelled from the spec, section 3: a machine word, either a plain integer or a
pointer carrying provenance. -/
inductive Scalar
  | int (v : Nat)
  | ptr (p : Pointer)
deriving DecidableEq

/-- Modelled from the spec, section 3: direct value representations held by the
abstract machine without a backing allocation. -/
inductive Immediate
  | scalar (s : Scalar)
  | scalarPair (a b : Scalar)
  | uninit
deriving DecidableEq

/-- Modelled from the spec, sections 3 and 4.3: the fragment of the type language
the place-to-constant boundary inspects: references, raw pointers, str, slices,
nominal types with a recursive struct tail, and abstract other types. -/
inductive Ty
  | str
  | slice
  | ref (pointee : Ty)
  | rawPtr (pointee : Ty)
  | adt (tail : Ty)
  | other
deriving DecidableEq

/-- Modelled from the spec, section 4.3: builtin_deref with explicit set to false,
as called by op_to_const: it returns the pointee of a reference and nothing for raw
pointers or non-pointer types. -/
def builtin_deref (ty : Ty) : Option Ty :=
  match ty with
  | .ref p => some p
  | _ => none

/-- Modelled from the spec, section 4.3: the struct tail of a type, the last field
taken recursively through nominal types. -/
def struct_tail : Ty → Ty
  | .adt t => struct_tail t
  | t => t

/-- The slice-tailed test used by op_to_const: the struct tail is str or slice. -/
def isSliceTailed (ty : Ty) : Bool :=
  match struct_tail ty with
  | .str => true
  | .slice => true
  | _ => false

/-- Modelled from the spec, section 6: the ABI classification computed by the
external layout query; a scalar records whether it is fully initialized. -/
inductive Abi
  | scalar (initialized : Bool)
  | scalarPair
  | aggregate
deriving DecidableEq

/-- Modelled from the spec, section 6: the layout facts consumed at the
place-to-constant boundary. -/
structure Layout where
  is_zst : Bool
  abi : Abi
  ty : Ty
deriving DecidableEq

/-- A place: a pointer into memory together with the layout of the value. -/
structure MPlaceTy where
  ptr : Pointer
  layout : Layout
deriving DecidableEq

/-- An immediate together with the layout of the value. -/
structure ImmTy where
  imm : Immediate
  layout : Layout
deriving DecidableEq

/-- The operand payload of a value: either held directly or behind a place. -/
inductive Operand
  | immediate (imm : Immediate)
  | indirect (ptr : Pointer)
deriving DecidableEq

/-- A typed operand, the input of op_to_const. -/
structure OpTy where
  layout : Layout
  op : Operand
deriving DecidableEq

/-- The as_mplace_or_imm decomposition of an operand. -/
def OpTy.as_mplace_or_imm (o : OpTy) : Sum MPlaceTy ImmTy :=
  match o.op with
  | .indirect p => Sum.inl { ptr := p, layout := o.layout }
  | .immediate i => Sum.inr { imm := i, layout := o.layout }

/-- A place viewed as an operand, as mplace.into() does in the source. -/
def MPlaceTy.toOpTy (m : MPlaceTy) : OpTy :=
  { layout := m.layout, op := .indirect m.ptr }

/-- Modelled from the spec, section 7: an opaque user-facing interpreter error. -/
inductive IErr
  | err (code : Nat)
deriving DecidableEq

/-- A fatal internal logic error: a failed assertion or an unreachable case in the
source, which aborts the compiler rather than producing a user-facing error. -/
inductive Bug
  | bug (msg : String)
deriving DecidableEq

/-- Modelled from the spec, section 4.1: decompose a scalar as a pointer; it fails
with a descriptive error when the scalar is not pointer shaped. -/
def Scalar.to_pointer : Scalar → Except IErr Pointer
  | .ptr p => .ok p
  | .int _ => .error (.err 0)

/-- Modelled from the spec, section 4.3: read a scalar as the target usize element
count; it fails on a pointer scalar. -/
def Scalar.to_target_usize : Scalar → Except IErr Nat
  | .int v => .ok v
  | .ptr _ => .error (.err 1)

/-- Modelled from the spec, sections 4.1 and 6: the interpreter-context facilities
op_to_const consumes: reading a value as an immediate, and the bytes of interned
global allocations (global_alloc followed by unwrap_memory). -/
structure Ecx where
  readImmediate : OpTy → Except IErr ImmTy
  globalAllocBytes : AllocId → Option (List Nat)

/-- The portable constant representation, ConstValue in the source. -/
inductive ConstValue
  | zeroSized
  | scalar (s : Scalar)
  | slice (data : List Nat) (meta : Nat)
  | indirect (alloc_id : AllocId) (offset : Nat)
deriving DecidableEq

/-- The message of the expect calls on the scalar-pair path of op_to_const. -/
def sliceBugMsg : String :=
  "op_to_const on an immediate scalar pair must only be used on slice references to the beginning of an actual allocation"

/-- The message of the expect call on the place arm of op_to_const. -/
def fakePlaceMsg : String :=
  "cannot have fake place for non-ZST type"

/-- The panic message of the forced-read failure in op_to_const. -/
def normalizationMsg : String :=
  "normalization works on validated constants"

/-- The message of the unwrap of builtin_deref in op_to_const. -/
def derefNoneMsg : String :=
  "builtin_deref returned none for a scalar pair type"

/-- The message of the debug assertion that a scalar pair type is slice tailed. -/
def notSliceTailedMsg : String :=
  "ConstValue Slice is for slice-tailed types only"

/-- The message of unwrap_memory failing on the backing allocation. -/
def unwrapMemoryMsg : String :=
  "global_alloc unwrap_memory failed"

/-- The message of the unreachable Uninit arm of op_to_const. -/
def uninitMsg : String :=
  "Uninit is not a valid value"

/-- The arm of op_to_const on the already chosen representation, source lines 175
to 210: a place becomes Indirect from its pointer parts, a scalar immediate becomes
Scalar, and a scalar pair is accepted only as a slice reference to offset zero of
its backing allocation, yielding Slice. -/
def opToConstImmediate (ecx : Ecx) (immediate : Sum MPlaceTy ImmTy) :
    Except Bug ConstValue :=
  match immediate with
  | Sum.inl mplace =>
    match mplace.ptr.prov with
    | none => .error (.bug fakePlaceMsg)
    | some alloc_id => .ok (.indirect alloc_id mplace.ptr.offset)
  | Sum.inr imm =>
    match imm.imm with
    | .scalar x => .ok (.scalar x)
    | .scalarPair a b =>
      match builtin_deref imm.layout.ty with
      | none => .error (.bug derefNoneMsg)
      | some pointee_ty =>
        if !isSliceTailed pointee_ty then .error (.bug notSliceTailedMsg)
        else
          match a.to_pointer with
          | .error _ => .error (.bug sliceBugMsg)
          | .ok p =>
            match p.prov with
            | none => .error (.bug sliceBugMsg)
            | some alloc_id =>
              match ecx.globalAllocBytes alloc_id with
              | none => .error (.bug unwrapMemoryMsg)
              | some data =>
                if p.offset != 0 then .error (.bug sliceBugMsg)
                else
                  match b.to_target_usize with
                  | .error _ => .error (.bug sliceBugMsg)
                  | .ok meta => .ok (.slice data meta)
    | .uninit => .error (.bug uninitMsg)

/-- op_to_const from the source, lines 135 to 211: convert an interpreter value
into a constant. A zero-sized value short-circuits to ZeroSized; a value of
initialized-scalar ABI is forced to an immediate by reading it, where a failed read
is a fatal bug unless for_diagnostics holds, in which case the existing
representation is kept; every other value keeps its representation. -/
def op_to_const (ecx : Ecx) (op : OpTy) (for_diagnostics : Bool) :
    Except Bug ConstValue :=
  if op.layout.is_zst then .ok .zeroSized
  else
    let force_as_immediate :=
      match op.layout.abi with
      | .scalar true => true
      | _ => false
    let immediate : Except Bug (Sum MPlaceTy ImmTy) :=
      if force_as_immediate then
        match ecx.readImmediate op with
        | .ok imm => .ok (Sum.inr imm)
        | .error _ =>
          if !for_diagnostics then .error (.bug normalizationMsg)
          else .ok op.as_mplace_or_imm
      else
        .ok op.as_mplace_or_imm
    match immediate with
    | .error b => .error b
    | .ok imm => opToConstImmediate ecx imm

/-- A zero-sized aggregate layout used as a concrete test value. -/
def zstLayout : Layout := { is_zst := true, abi := .aggregate, ty := .other }

/-- A non-zero-sized layout of initialized-scalar ABI used as a concrete test
value. -/
def scalarLayout : Layout := { is_zst := false, abi := .scalar true, ty := .other }

/-- A context whose reads always fail, used as a concrete test value. -/
def failingReadEcx : Ecx :=
  { readImmediate := fun _ => .error (.err 2), globalAllocBytes := fun _ => none }

/-- A scalar-ABI operand held as a place with provenance 7 at offset 3, used as a
concrete test value. -/
def placeScalarOp : OpTy :=
  { layout := scalarLayout, op := .indirect { prov := some 7, offset := 3 } }

/-- The layout of a reference to str, of scalar-pair ABI. -/
def abLayout : Layout := { is_zst := false, abi := .scalarPair, ty := .ref .str }

/-- A context whose allocation 5 holds the bytes of the string ab. -/
def abEcx : Ecx :=
  { readImmediate := fun _ => .error (.err 2),
    globalAllocBytes := fun i => if i = 5 then some [97, 98] else none }

/-- The operand for a reference to the string ab: a scalar pair of a pointer to
allocation 5 at offset zero and the length 2. -/
def abOp : OpTy :=
  { layout := abLayout,
    op := .immediate (.scalarPair (.ptr { prov := some 5, offset := 0 }) (.int 2)) }

/-- C1: for every value whose type is zero-sized, op_to_const returns ZeroSized
immediately, whatever representation the value has and in both modes, inspecting
nothing else and creating no allocation. -/
theorem op_to_const_zst (ecx : Ecx) (op : OpTy) (fd : Bool)
    (h : op.layout.is_zst = true) :
    op_to_const ecx op fd = .ok .zeroSized := by
  simp [op_to_const, h]

/-- Witness for C1 at a concrete zero-sized uninit immediate. -/
theorem op_to_const_zst_witness :
    ({ layout := zstLayout, op := .immediate .uninit } : OpTy).layout.is_zst = true ∧
      op_to_const failingReadEcx { layout := zstLayout, op := .immediate .uninit }
        false = .ok .zeroSized :=
  ⟨rfl, op_to_const_zst failingReadEcx { layout := zstLayout, op := .immediate .uninit } false rfl⟩

/-- Helper: the representation arm never produces Indirect from an immediate. -/
theorem opToConstImmediate_inr_ne_indirect (ecx : Ecx) (imm : ImmTy)
    (a : AllocId) (o : Nat) :
    opToConstImmediate ecx (Sum.inr imm) ≠ .ok (.indirect a o) := by
  unfold opToConstImmediate
  rcases imm with ⟨i, l⟩
  cases i <;> simp
  repeat (any_goals split)
  all_goals simp

/-- C2 counterexample: with for_diagnostics set and a failing forced read, a
scalar-ABI non-zero-sized place falls back to its place representation and
op_to_const returns Indirect, refuting that op_to_const never returns Indirect for
scalar-ABI values. -/
theorem op_to_const_scalar_indirect_counterexample :
    placeScalarOp.layout.abi = .scalar true ∧
      placeScalarOp.layout.is_zst = false ∧
      op_to_const failingReadEcx placeScalarOp true = .ok (.indirect 7 3) :=
  ⟨rfl, rfl, rfl⟩

/-- C2 amended: in normal mode, with for_diagnostics unset, op_to_const never
returns Indirect for a value whose ABI is an initialized scalar: the value is
forced to an immediate by reading it, and a failed read is a fatal bug rather than
a fallback. -/
theorem op_to_const_scalar_never_indirect (ecx : Ecx) (op : OpTy)
    (h : op.layout.abi = .scalar true) (a : AllocId) (o : Nat) :
    op_to_const ecx op false ≠ .ok (.indirect a o) := by
  unfold op_to_const
  by_cases hz : op.layout.is_zst
  · simp [hz]
  · simp only [hz, if_false, h, Bool.not_false]
    simp only [ite_true]
    cases hr : ecx.readImmediate op with
    | ok imm => simpa using opToConstImmediate_inr_ne_indirect ecx imm a o
    | error e => simp

/-- Witness for the amended C2 at a concrete scalar-ABI immediate operand. -/
theorem op_to_const_scalar_never_indirect_witness :
    scalarLayout.abi = .scalar true ∧
      op_to_const failingReadEcx
        { layout := scalarLayout, op := .immediate (.scalar (.int 5)) } false ≠
        .ok (.indirect 7 3) :=
  ⟨rfl,
    op_to_const_scalar_never_indirect failingReadEcx
      { layout := scalarLayout, op := .immediate (.scalar (.int 5)) } rfl 7 3⟩

/-- C3: op_to_const on a scalar-pair immediate of non-forced ABI succeeds only for
a reference to a slice-tailed type whose first scalar is a pointer with provenance
at byte offset exactly zero, and then yields Slice of the backing allocation bytes
and the second scalar as count; a non-zero offset or a non-slice-tailed pair is a
fatal bug; and converting the concrete reference to the string ab yields the bytes
97 and 98 with length 2. -/
theorem op_to_const_scalar_pair (ecx : Ecx) (l : Layout) (a b : Scalar)
    (hz : l.is_zst = false) (habi : l.abi = .scalarPair) :
    (∀ v, op_to_const ecx { layout := l, op := .immediate (.scalarPair a b) } false
        = .ok v →
      ∃ pt p aid data meta, builtin_deref l.ty = some pt ∧
        isSliceTailed pt = true ∧ a.to_pointer = .ok p ∧ p.prov = some aid ∧
        p.offset = 0 ∧ ecx.globalAllocBytes aid = some data ∧
        b.to_target_usize = .ok meta ∧ v = .slice data meta) ∧
    (∀ pt p aid data, builtin_deref l.ty = some pt → isSliceTailed pt = true →
      a.to_pointer = .ok p → p.prov = some aid →
      ecx.globalAllocBytes aid = some data → p.offset ≠ 0 →
      op_to_const ecx { layout := l, op := .immediate (.scalarPair a b) } false
        = .error (.bug sliceBugMsg)) ∧
    (∀ pt, builtin_deref l.ty = some pt → isSliceTailed pt = false →
      op_to_const ecx { layout := l, op := .immediate (.scalarPair a b) } false
        = .error (.bug notSliceTailedMsg)) ∧
    (builtin_deref l.ty = none →
      op_to_const ecx { layout := l, op := .immediate (.scalarPair a b) } false
        = .error (.bug derefNoneMsg)) ∧
    op_to_const abEcx abOp false = .ok (.slice [97, 98] 2) := by
  have hforce :
      op_to_const ecx { layout := l, op := .immediate (.scalarPair a b) } false =
        opToConstImmediate ecx
          (Sum.inr { imm := .scalarPair a b, layout := l }) := by
    simp [op_to_const, hz, habi, OpTy.as_mplace_or_imm]
  refine ⟨?_, ?_, ?_, ?_, rfl⟩
  · intro v hv
    rw [hforce] at hv
    unfold opToConstImmediate at hv
    simp only at hv
    split at hv
    · exact absurd hv (by simp)
    · rename_i pt hpt
      split at hv
      · exact absurd hv (by simp)
      · rename_i hst
        split at hv
        · exact absurd hv (by simp)
        · rename_i p hp
          split at hv
          · exact absurd hv (by simp)
          · rename_i aid haid
            split at hv
            · exact absurd hv (by simp)
            · rename_i data hdata
              split at hv
              · exact absurd hv (by simp)
              · rename_i hoff
                split at hv
                · exact absurd hv (by simp)
                · rename_i meta hmeta
                  refine ⟨pt, p, aid, data, meta, hpt, ?_, hp, haid, ?_, hdata, hmeta, ?_⟩
                  · simpa using hst
                  · simpa using hoff
                  · simpa using hv.symm
  · intro pt p aid data hpt hst hp haid hdata hoff
    rw [hforce]
    unfold opToConstImmediate
    simp [hpt, hst, hp, haid, hdata, hoff]
  · intro pt hpt hst
    rw [hforce]
    unfold opToConstImmediate
    simp [hpt, hst]
  · intro hpt
    rw [hforce]
    unfold opToConstImmediate
    simp [hpt]

/-- Witness for C3: a slice reference with a non-zero offset is the fatal
scalar-pair bug, applied at a concrete input. -/
theorem op_to_const_scalar_pair_witness :
    op_to_const abEcx
      { layout := abLayout,
        op := .immediate (.scalarPair (.ptr { prov := some 5, offset := 1 }) (.int 2)) }
      false = .error (.bug sliceBugMsg) :=
  (op_to_const_scalar_pair abEcx abLayout
      (.ptr { prov := some 5, offset := 1 }) (.int 2) rfl rfl).2.1
    .str { prov := some 5, offset := 1 } 5 [97, 98] rfl rfl rfl rfl rfl
    (by decide)

/-- C9: if the forced read of an initialized-scalar-ABI non-zero-sized value fails,
then in normal mode op_to_const is the fatal normalization bug, while in diagnostic
mode it falls back to the representation the value already holds, so a place with
provenance still yields Indirect and a scalar immediate still yields Scalar. -/
theorem op_to_const_forced_read_failure (ecx : Ecx) (op : OpTy) (e : IErr)
    (hz : op.layout.is_zst = false) (habi : op.layout.abi = .scalar true)
    (hread : ecx.readImmediate op = .error e) :
    op_to_const ecx op false = .error (.bug normalizationMsg) ∧
    op_to_const ecx op true = opToConstImmediate ecx op.as_mplace_or_imm ∧
    (∀ pr off, op.op = .indirect { prov := some pr, offset := off } →
      op_to_const ecx op true = .ok (.indirect pr off)) ∧
    (∀ s, op.op = .immediate (.scalar s) →
      op_to_const ecx op true = .ok (.scalar s)) := by
  have h1 : op_to_const ecx op false = .error (.bug normalizationMsg) := by
    simp [op_to_const, hz, habi, hread]
  have h2 : op_to_const ecx op true = opToConstImmediate ecx op.as_mplace_or_imm := by
    simp [op_to_const, hz, habi, hread]
  refine ⟨h1, h2, ?_, ?_⟩
  · intro pr off hop
    rw [h2]
    simp [OpTy.as_mplace_or_imm, hop, opToConstImmediate]
  · intro s hop
    rw [h2]
    simp [OpTy.as_mplace_or_imm, hop, opToConstImmediate]

/-- Witness for C9 at the concrete scalar-ABI place with failing read. -/
theorem op_to_const_forced_read_failure_witness :
    op_to_const failingReadEcx placeScalarOp false
        = .error (.bug normalizationMsg) ∧
      op_to_const failingReadEcx placeScalarOp true = .ok (.indirect 7 3) := by
  have h := op_to_const_forced_read_failure failingReadEcx placeScalarOp
    (.err 2) rfl rfl rfl
  exact ⟨h.1, h.2.2.1 7 3 rfl⟩

/-- The validation modes of the validator, CtfeValidationMode in the source. -/
inductive CtfeValidationMode
  | promoted
  | staticMode (mutbl : Mutability)
  | constMode (allow_immutable_unsafe_cell : Bool)
deriving DecidableEq

/-- Modelled from the spec, section 4.4: the validator view of one reachable place:
its pointer, whether it holds an interior-mutability cell, whether it holds an
otherwise invalid value, and the places reachable from it through references. -/
inductive VPlace
  | mk (ptr : Pointer) (hasUnsafeCell : Bool) (invalidValue : Bool)
      (children : List VPlace)

/-- The pointer of a validator place. -/
def VPlace.ptr : VPlace → Pointer
  | .mk p _ _ _ => p

/-- Whether a validator place holds an interior-mutability cell. -/
def VPlace.hasUnsafeCell : VPlace → Bool
  | .mk _ c _ _ => c

/-- Whether a validator place holds an otherwise invalid value. -/
def VPlace.invalidValue : VPlace → Bool
  | .mk _ _ i _ => i

/-- The places reachable from a validator place through references. -/
def VPlace.children : VPlace → List VPlace
  | .mk _ _ _ cs => cs

/-- Modelled from the spec, section 4.4: the undefined-behavior kinds the validator
raises. -/
inductive VErr
  | interiorMutability
  | invalidValue
deriving DecidableEq

/-- Validation failures are undefined-behavior errors. -/
def VErr.isUB : VErr → Bool
  | .interiorMutability => true
  | .invalidValue => true

/-- Modelled from the spec, section 4.4: check one place against the validation
mode. An invalid value is always rejected; an interior-mutability cell is rejected
exactly when the mode is Const with allow_immutable_unsafe_cell unset, which is all
the spec fixes about interior mutability; on success the places reachable from this
place through references are enqueued. -/
def const_validate_operand (p : VPlace) (mode : CtfeValidationMode) :
    Except VErr (List VPlace) :=
  if p.invalidValue then .error .invalidValue
  else
    match mode with
    | .constMode false =>
      if p.hasUnsafeCell then .error .interiorMutability else .ok p.children
    | _ => .ok p.children

/-- The validation-mode selection of const_validate_mplace, source lines 404 to
413: Promoted whenever the key has a promoted ordinal, else Static with the static
mutability, else Const allowing an immutable cell only on the outer place. -/
def modeFor (staticMut : Option Mutability) (promoted : Bool) (inner : Bool) :
    CtfeValidationMode :=
  if promoted then .promoted
  else
    match staticMut with
    | some mutbl => .staticMode mutbl
    | none => .constMode !inner

/-- Modelled from the spec, sections 4.5 and 6: the facilities const_report_error
consumes: the printable byte rendering of an allocation and its size and
alignment. -/
structure VEcx where
  printAllocBytes : AllocId → List Nat
  allocSize : AllocId → Nat
  allocAlign : AllocId → Nat

/-- The raw-byte dump attached to an undefined-behavior report. -/
structure RawBytesNote where
  size : Nat
  align : Nat
  bytes : List Nat
deriving DecidableEq

/-- The undefined-behavior report built by const_report_error. -/
structure UbReport where
  ubNote : Bool
  rawBytes : RawBytesNote
deriving DecidableEq

/-- const_report_error from the source, lines 423 to 444: build the report for a
failed validation, attaching the raw-byte dump, size, alignment and printable
bytes, of the allocation named by alloc_id. -/
def const_report_error (ecx : VEcx) (error : VErr) (alloc_id : AllocId) :
    UbReport :=
  { ubNote := error.isUB,
    rawBytes := { size := ecx.allocSize alloc_id, align := ecx.allocAlign alloc_id,
                  bytes := ecx.printAllocBytes alloc_id } }

/-- Helper: the reachable places of a place are smaller than the place. -/
theorem sizeOf_children_lt (p : VPlace) : sizeOf p.children < sizeOf p := by
  cases p with
  | mk ptr c i cs => simp only [VPlace.children, VPlace.mk.sizeOf_spec]; omega

/-- Helper: the size of an appended worklist. -/
theorem sizeOf_list_append (a b : List VPlace) :
    sizeOf (a ++ b) + 1 = sizeOf a + sizeOf b := by
  induction a with
  | nil => simp; try omega
  | cons x xs ih => simp [List.cons_append]; try omega

/-- The worklist loop of const_validate_mplace, source lines 402 to 417: pop a
place, select the mode, where only the first popped place is outer, check the
place, enqueueing the places reachable from it, and stop at the first error, which
const_report_error turns into the report. The loop is instrumented to also return
the mode used for each popped place in order, and how many times the raw-byte
report was built. -/
def validateLoop (ecx : VEcx) (staticMut : Option Mutability) (promoted : Bool)
    (alloc_id : AllocId) :
    List VPlace → Bool → Except UbReport Unit × List CtfeValidationMode × Nat
  | [], _ => (.ok (), [], 0)
  | p :: rest, inner =>
    let mode := modeFor staticMut promoted inner
    match const_validate_operand p mode with
    | .error e => (.error (const_report_error ecx e alloc_id), [mode], 1)
    | .ok _ =>
      let r := validateLoop ecx staticMut promoted alloc_id (p.children ++ rest) true
      (r.1, mode :: r.2.1, r.2.2)
termination_by todo _ => sizeOf todo
decreasing_by
  have h1 := sizeOf_children_lt p
  have h2 := sizeOf_list_append p.children rest
  simp; omega

/-- const_validate_mplace from the source, lines 395 to 420: take the root
allocation id from the provenance of the root place, where a missing provenance is
a fatal unwrap, reflected here as none, then run the worklist from the root with
the outer flag set. -/
def const_validate_mplace (ecx : VEcx) (mplace : VPlace)
    (staticMut : Option Mutability) (promoted : Bool) :
    Option (Except UbReport Unit × List CtfeValidationMode × Nat) :=
  match mplace.ptr.prov with
  | none => none
  | some alloc_id =>
    some (validateLoop ecx staticMut promoted alloc_id [mplace] false)

/-- The validation result of an instrumented run. -/
def vResult (r : Option (Except UbReport Unit × List CtfeValidationMode × Nat)) :
    Option (Except UbReport Unit) :=
  r.map fun x => x.1

/-- The modes, one per popped place in order, of an instrumented run. -/
def vModes (r : Option (Except UbReport Unit × List CtfeValidationMode × Nat)) :
    List CtfeValidationMode :=
  (r.map fun x => x.2.1).getD []

/-- The number of raw-byte dumps built during an instrumented run. -/
def vDumps (r : Option (Except UbReport Unit × List CtfeValidationMode × Nat)) :
    Option Nat :=
  r.map fun x => x.2.2

/-- Every place in the worklist, and everything reachable from one, is free of
interior-mutability cells and invalid values. -/
def allOkChildren : List VPlace → Bool
  | [] => true
  | p :: rest =>
    !p.hasUnsafeCell && !p.invalidValue && allOkChildren (p.children ++ rest)
termination_by todo => sizeOf todo
decreasing_by
  have h1 := sizeOf_children_lt p
  have h2 := sizeOf_list_append p.children rest
  simp; omega

/-- Some place in the worklist, or one reachable from it, holds an
interior-mutability cell. -/
def someCell : List VPlace → Bool
  | [] => false
  | p :: rest => p.hasUnsafeCell || someCell (p.children ++ rest)
termination_by todo => sizeOf todo
decreasing_by
  have h1 := sizeOf_children_lt p
  have h2 := sizeOf_list_append p.children rest
  simp; omega

/-- Helper: induction along the worklist recursion. -/
theorem vplaceWorklistInd (motive : List VPlace → Prop) (h0 : motive [])
    (h1 : ∀ p rest, motive (p.children ++ rest) → motive (p :: rest)) :
    ∀ todo, motive todo := by
  have key : ∀ n todo, sizeOf todo ≤ n → motive todo := by
    intro n
    induction n with
    | zero =>
      intro todo h
      cases todo with
      | nil => exact h0
      | cons p rest => simp at h
    | succ n ih =>
      intro todo h
      cases todo with
      | nil => exact h0
      | cons p rest =>
        apply h1
        apply ih
        have hc := sizeOf_children_lt p
        have ha := sizeOf_list_append p.children rest
        simp at h
        omega
  intro todo
  exact key (sizeOf todo) todo le_rfl

/-- Helper: on an inner const run the loop succeeds exactly when everything in and
reachable from the worklist is free of cells and invalid values. -/
theorem validateLoop_inner_ok_iff (ecx : VEcx) (aid : AllocId) :
    ∀ todo, ((validateLoop ecx none false aid todo true).1 = .ok ()) ↔
      allOkChildren todo = true := by
  apply vplaceWorklistInd
  · simp [validateLoop, allOkChildren]
  · intro p rest ih
    cases hinv : p.invalidValue with
    | true =>
      simp [validateLoop, allOkChildren, const_validate_operand, modeFor, hinv]
    | false =>
      cases hcell : p.hasUnsafeCell with
      | true =>
        simp [validateLoop, allOkChildren, const_validate_operand, modeFor, hinv,
          hcell]
      | false =>
        simp [validateLoop, allOkChildren, const_validate_operand, modeFor, hinv,
          hcell, ih]

/-- Helper: on an inner run every recorded mode is the inner mode. -/
theorem validateLoop_inner_modes (ecx : VEcx) (s : Option Mutability) (pr : Bool)
    (aid : AllocId) :
    ∀ todo, ∀ m ∈ (validateLoop ecx s pr aid todo true).2.1,
      m = modeFor s pr true := by
  apply vplaceWorklistInd
    (motive := fun todo =>
      ∀ m ∈ (validateLoop ecx s pr aid todo true).2.1, m = modeFor s pr true)
  · simp [validateLoop]
  · intro p rest ih m hm
    simp only [validateLoop] at hm
    split at hm
    · simpa using hm
    · simp at hm
      rcases hm with h | h
      · exact h
      · exact ih m h

/-- Helper: the first recorded mode of a nonempty run uses the given inner flag. -/
theorem validateLoop_head_mode (ecx : VEcx) (s : Option Mutability) (pr : Bool)
    (aid : AllocId) (p : VPlace) (rest : List VPlace) (inner : Bool) :
    ((validateLoop ecx s pr aid (p :: rest) inner).2.1).head? =
      some (modeFor s pr inner) := by
  simp only [validateLoop]
  split <;> simp

/-- Helper: every recorded mode after the first uses the inner flag. -/
theorem validateLoop_tail_modes (ecx : VEcx) (s : Option Mutability) (pr : Bool)
    (aid : AllocId) (p : VPlace) (rest : List VPlace) (inner : Bool) :
    ∀ m ∈ ((validateLoop ecx s pr aid (p :: rest) inner).2.1).tail,
      m = modeFor s pr true := by
  simp only [validateLoop]
  split
  · simp
  · intro m hm
    simp at hm
    exact validateLoop_inner_modes ecx s pr aid _ m hm

/-- Helper: every recorded mode of a nonempty run is the outer or the inner mode. -/
theorem validateLoop_modes_cases (ecx : VEcx) (s : Option Mutability) (pr : Bool)
    (aid : AllocId) (p : VPlace) (rest : List VPlace) (inner : Bool) :
    ∀ m ∈ (validateLoop ecx s pr aid (p :: rest) inner).2.1,
      m = modeFor s pr inner ∨ m = modeFor s pr true := by
  simp only [validateLoop]
  split
  · intro m hm
    simp at hm
    exact Or.inl hm
  · intro m hm
    simp at hm
    rcases hm with h | h
    · exact Or.inl h
    · exact Or.inr (validateLoop_inner_modes ecx s pr aid _ m h)

/-- Helper: the loop builds the raw-byte report exactly once, on failure, and the
report carries the dump of the root allocation; on success no report is built. -/
theorem validateLoop_report (ecx : VEcx) (s : Option Mutability) (pr : Bool)
    (aid : AllocId) :
    ∀ todo, ∀ inner,
      (((validateLoop ecx s pr aid todo inner).1 = .ok ()) →
        (validateLoop ecx s pr aid todo inner).2.2 = 0) ∧
      (∀ rep, (validateLoop ecx s pr aid todo inner).1 = .error rep →
        (validateLoop ecx s pr aid todo inner).2.2 = 1 ∧
        rep = { ubNote := true,
                rawBytes := { size := ecx.allocSize aid,
                              align := ecx.allocAlign aid,
                              bytes := ecx.printAllocBytes aid } }) := by
  apply vplaceWorklistInd
    (motive := fun todo => ∀ inner,
      (((validateLoop ecx s pr aid todo inner).1 = .ok ()) →
        (validateLoop ecx s pr aid todo inner).2.2 = 0) ∧
      (∀ rep, (validateLoop ecx s pr aid todo inner).1 = .error rep →
        (validateLoop ecx s pr aid todo inner).2.2 = 1 ∧
        rep = { ubNote := true,
                rawBytes := { size := ecx.allocSize aid,
                              align := ecx.allocAlign aid,
                              bytes := ecx.printAllocBytes aid } }))
  · intro inner
    simp [validateLoop]
  · intro p rest ih inner
    simp only [validateLoop]
    split
    · rename_i e hcv
      constructor
      · intro h
        simp at h
      · intro rep hrep
        simp at hrep
        refine ⟨rfl, ?_⟩
        rw [← hrep]
        cases e <;> rfl
    · constructor
      · intro h
        exact (ih true).1 h
      · intro rep hrep
        exact (ih true).2 rep hrep

/-- Helper: a worklist free of cells and invalid values has no reachable cell. -/
theorem someCell_of_allOk :
    ∀ todo, allOkChildren todo = true → someCell todo = false := by
  apply vplaceWorklistInd
  · simp [allOkChildren, someCell]
  · intro p rest ih h
    rw [allOkChildren] at h
    rw [someCell]
    simp at h ⊢
    exact ⟨h.1.1, ih h.2⟩

/-- C4: during validation of a non-promoted non-static constant, the first popped
place is checked in mode Const with allow_immutable_unsafe_cell set and every
subsequently popped place in mode Const with the flag unset; consequently a cell at
the root passes while a cell reachable at depth at least one fails; with a promoted
key every place is checked in mode Promoted, whatever the owning item, and for a
non-promoted static every place is checked in mode Static with the static
mutability. -/
theorem const_validate_const_modes (ecx : VEcx) (root : VPlace) (aid : AllocId)
    (hprov : root.ptr.prov = some aid) :
    (vModes (const_validate_mplace ecx root none false)).head? =
      some (.constMode true) ∧
    (∀ m ∈ (vModes (const_validate_mplace ecx root none false)).tail,
      m = .constMode false) ∧
    (root.invalidValue = false → allOkChildren root.children = true →
      vResult (const_validate_mplace ecx root none false) = some (.ok ())) ∧
    (someCell root.children = true →
      vResult (const_validate_mplace ecx root none false) ≠ some (.ok ())) ∧
    (∀ smut, ∀ m ∈ vModes (const_validate_mplace ecx root smut true),
      m = .promoted) ∧
    (∀ mutbl, ∀ m ∈ vModes (const_validate_mplace ecx root (some mutbl) false),
      m = .staticMode mutbl) := by
  have hrun : const_validate_mplace ecx root none false =
      some (validateLoop ecx none false aid [root] false) := by
    simp [const_validate_mplace, hprov]
  refine ⟨?_, ?_, ?_, ?_, ?_, ?_⟩
  · rw [hrun]
    simpa [vModes, modeFor] using
      validateLoop_head_mode ecx none false aid root [] false
  · intro m hm
    rw [hrun] at hm
    simp [vModes] at hm
    have := validateLoop_tail_modes ecx none false aid root [] false m hm
    simpa [modeFor] using this
  · intro hinv hok
    rw [hrun]
    have h1 := (validateLoop_inner_ok_iff ecx aid root.children).mpr hok
    simp [vResult, validateLoop, modeFor, const_validate_operand, hinv, h1]
  · intro hcell
    rw [hrun]
    intro hcontra
    simp [vResult] at hcontra
    cases hinv : root.invalidValue with
    | true =>
      simp [validateLoop, modeFor, const_validate_operand, hinv] at hcontra
    | false =>
      simp [validateLoop, modeFor, const_validate_operand, hinv] at hcontra
      have hall := (validateLoop_inner_ok_iff ecx aid root.children).mp hcontra
      have := someCell_of_allOk root.children hall
      rw [this] at hcell
      exact Bool.false_ne_true hcell
  · intro smut m hm
    have hrun2 : const_validate_mplace ecx root smut true =
        some (validateLoop ecx smut true aid [root] false) := by
      simp [const_validate_mplace, hprov]
    rw [hrun2] at hm
    simp [vModes] at hm
    have := validateLoop_modes_cases ecx smut true aid root [] false m hm
    rcases this with h | h <;> simpa [modeFor] using h
  · intro mutbl m hm
    have hrun2 : const_validate_mplace ecx root (some mutbl) false =
        some (validateLoop ecx (some mutbl) false aid [root] false) := by
      simp [const_validate_mplace, hprov]
    rw [hrun2] at hm
    simp [vModes] at hm
    have := validateLoop_modes_cases ecx (some mutbl) false aid root [] false m hm
    rcases this with h | h <;> simpa [modeFor] using h

/-- A report context with concrete allocation info, used as a test value. -/
def vecx0 : VEcx :=
  { printAllocBytes := fun _ => [0, 1], allocSize := fun _ => 2,
    allocAlign := fun _ => 1 }

/-- A root place with an interior-mutability cell and no reachable children. -/
def okRoot : VPlace := .mk { prov := some 0, offset := 0 } true false []

/-- A root place holding an otherwise invalid value. -/
def invalidRoot : VPlace := .mk { prov := some 0, offset := 0 } false true []

/-- Witness for C4: a const root carrying a cell, with nothing reachable from it,
validates successfully. -/
theorem const_validate_const_modes_witness :
    vResult (const_validate_mplace vecx0 okRoot none false) = some (.ok ()) :=
  (const_validate_const_modes vecx0 okRoot 0 rfl).2.2.1 rfl
    (by simp [okRoot, VPlace.children, allOkChildren])

/-- C7: when validation of a reachable place fails the whole validation aborts with
one report, that report carries the raw-byte dump, size, alignment and printable
bytes, of the allocation named by the root allocation id, and the dump is built
exactly once; on the success path no dump is ever built. -/
theorem const_validate_report_lazy (ecx : VEcx) (root : VPlace) (aid : AllocId)
    (smut : Option Mutability) (promoted : Bool)
    (hprov : root.ptr.prov = some aid) :
    (vResult (const_validate_mplace ecx root smut promoted) = some (.ok ()) →
      vDumps (const_validate_mplace ecx root smut promoted) = some 0) ∧
    (∀ rep,
      vResult (const_validate_mplace ecx root smut promoted) = some (.error rep) →
      vDumps (const_validate_mplace ecx root smut promoted) = some 1 ∧
      rep.ubNote = true ∧
      rep.rawBytes = { size := ecx.allocSize aid, align := ecx.allocAlign aid,
                       bytes := ecx.printAllocBytes aid }) := by
  have hrun : const_validate_mplace ecx root smut promoted =
      some (validateLoop ecx smut promoted aid [root] false) := by
    simp [const_validate_mplace, hprov]
  have hr := validateLoop_report ecx smut promoted aid [root] false
  constructor
  · intro h
    rw [hrun] at h ⊢
    simp [vResult] at h
    simp [vDumps]
    exact hr.1 h
  · intro rep h
    rw [hrun] at h ⊢
    simp [vResult] at h
    have hh := hr.2 rep h
    simp [vDumps]
    exact ⟨hh.1, by rw [hh.2], by rw [hh.2]⟩

/-- Witness for C7: a root with an invalid value fails and the report carries the
dump of its allocation. -/
theorem const_validate_report_lazy_witness :
    vDumps (const_validate_mplace vecx0 invalidRoot none false) = some 1 := by
  have h := (const_validate_report_lazy vecx0 invalidRoot 0 none false rfl).2
  have hrep : vResult (const_validate_mplace vecx0 invalidRoot none false) =
      some (.error { ubNote := true,
                     rawBytes := { size := 2, align := 1, bytes := [0, 1] } }) := by
    simp [const_validate_mplace, vResult, validateLoop, modeFor,
      const_validate_operand, const_report_error, VErr.isUB, invalidRoot,
      VPlace.ptr, VPlace.invalidValue, vecx0]
  exact (h _ hrep).1

/-- The intern kinds of the driver, InternKind in the source. -/
inductive InternKind
  | promoted
  | staticKind (mutbl : Mutability)
  | constant
deriving DecidableEq

/-- The kind of memory allocated for the destination of an evaluation. -/
inductive MemKind
  | staticAlloc (mutbl : Mutability)
  | stack
deriving DecidableEq

/-- The intern-kind selection of eval_body_using_ecx, source lines 52 to 59:
Promoted whenever the key has a promoted ordinal, else Static with the static
mutability, else Constant. -/
def internKindFor (promoted : Bool) (staticMut : Option Mutability) : InternKind :=
  if promoted then .promoted
  else
    match staticMut with
    | some m => .staticKind m
    | none => .constant

/-- The destination choice of eval_body_using_ecx, source lines 61 to 65: a
dedicated static allocation exactly when the intern kind is Static, otherwise stack
memory. Modelled from the spec for the tag: create_static_alloc, defined outside
the sampled file, tags the allocation with the static mutability. -/
def destKindFor (ik : InternKind) : MemKind :=
  match ik with
  | .staticKind m => .staticAlloc m
  | _ => .stack

/-- The observable events of one evaluation, in order. -/
inductive Event
  | allocated (k : MemKind)
  | interned (k : InternKind)
  | validated
  | reported
deriving DecidableEq

/-- Whether an event list contains the validation event. -/
def hasValidated (evs : List Event) : Bool :=
  evs.any fun e =>
    match e with
    | .validated => true
    | _ => false

/-- Modelled from the spec, sections 4.2 and 6: the abstract collaborators of the
evaluation driver, each fallible operation given by its outcome. The step loop is
given by the outcomes of successive step calls, where ok true means continue and ok
false means the root frame completed. -/
structure Machine where
  loadMir : Except IErr Unit
  defKindOk : Bool
  staticMut : Option Mutability
  layoutOf : Except IErr Unit
  layoutSized : Bool
  createStaticAlloc : Except IErr VPlace
  allocateStack : Except IErr VPlace
  pushFrame : Except IErr Unit
  storageLive : Except IErr Unit
  steps : List (Except IErr Bool)
  internResult : Except IErr Unit
  vecx : VEcx

/-- The step loop of eval_body_using_ecx, source line 82: run step until it signals
completion or fails. -/
def runStepLoop : List (Except IErr Bool) → Except IErr Unit
  | [] => .ok ()
  | r :: rs =>
    match r with
    | .error e => .error e
    | .ok false => .ok ()
    | .ok true => runStepLoop rs

/-- The outcome of eval_body_using_ecx: a fatal assertion, a propagated interpreter
error, or the destination place. -/
inductive BodyOutcome
  | fatal (msg : String)
  | interpErr (e : IErr)
  | done (ret : VPlace)

/-- The message of the definition-kind assertion in eval_body_using_ecx. -/
def unexpectedDefKindMsg : String := "Unexpected DefKind"

/-- The message of the sized-layout assertion in eval_body_using_ecx. -/
def unsizedLayoutMsg : String := "constant result must have a sized layout"

/-- eval_body_using_ecx from the source, lines 28 to 88: assert the definition
kind, compute the layout and require it sized, choose the intern kind and the
destination storage, push the root frame, mark always-live locals as live, run the
step loop, and on success intern the destination recursively before returning it.
The embedding also returns the events in order. -/
def eval_body_using_ecx (m : Machine) (promoted : Bool) :
    BodyOutcome × List Event :=
  if !(promoted || m.defKindOk) then (.fatal unexpectedDefKindMsg, [])
  else
    match m.layoutOf with
    | .error e => (.interpErr e, [])
    | .ok _ =>
      if !m.layoutSized then (.fatal unsizedLayoutMsg, [])
      else
        let intern_kind := internKindFor promoted m.staticMut
        let retE :=
          match intern_kind with
          | .staticKind _ => m.createStaticAlloc
          | _ => m.allocateStack
        match retE with
        | .error e => (.interpErr e, [])
        | .ok ret =>
          let evs := [Event.allocated (destKindFor intern_kind)]
          match m.pushFrame with
          | .error e => (.interpErr e, evs)
          | .ok _ =>
            match m.storageLive with
            | .error e => (.interpErr e, evs)
            | .ok _ =>
              match runStepLoop m.steps with
              | .error e => (.interpErr e, evs)
              | .ok _ =>
                match m.internResult with
                | .error e => (.interpErr e, evs)
                | .ok _ => (.done ret, evs ++ [Event.interned intern_kind])

/-- Helper: a successful body evaluation returns exactly the place handed back by
the chosen destination allocator. -/
theorem eval_body_done_inv (m : Machine) (promoted : Bool) (ret : VPlace)
    (h : (eval_body_using_ecx m promoted).1 = .done ret) :
    m.createStaticAlloc = .ok ret ∨ m.allocateStack = .ok ret := by
  unfold eval_body_using_ecx at h
  cases hik : internKindFor promoted m.staticMut <;>
    (simp only [hik] at h; repeat' split at h)
  all_goals simp_all

/-- Helper: a fatal body outcome is one of the two assertions. -/
theorem eval_body_fatal_inv (m : Machine) (promoted : Bool) (msg : String)
    (h : (eval_body_using_ecx m promoted).1 = .fatal msg) :
    msg = unexpectedDefKindMsg ∨ msg = unsizedLayoutMsg := by
  unfold eval_body_using_ecx at h
  cases hik : internKindFor promoted m.staticMut <;>
    (simp only [hik] at h; repeat' split at h)
  all_goals simp_all

/-- The message of the provenance unwrap in const_validate_mplace. -/
def validateProvMsg : String := "provenance unwrap failed in const_validate_mplace"

/-- The message of the provenance unwrap in make_result. -/
def makeResultProvMsg : String := "provenance unwrap failed in make_result"

/-- make_result for a constant allocation, source lines 298 to 305: take the
allocation id from the provenance of the result place; a missing provenance is a
fatal unwrap, reflected as none. -/
def make_result (mplace : VPlace) : Option AllocId := mplace.ptr.prov

/-- The final outcome of eval_in_interpreter. -/
inductive FinalOutcome
  | fatal (msg : String)
  | reportedError
  | ubError (r : UbReport)
  | success (alloc_id : AllocId)
deriving DecidableEq

/-- eval_in_interpreter from the source, lines 333 to 392: load the body and
evaluate it; on any failure build the evaluation-error report and return it; on
success validate the result place, return its undefined-behavior report on
failure, and otherwise produce the allocation-handle result. The embedding also
returns the events in order. -/
def eval_in_interpreter (m : Machine) (promoted : Bool) :
    FinalOutcome × List Event :=
  match m.loadMir with
  | .error _ => (.reportedError, [Event.reported])
  | .ok _ =>
    let r := eval_body_using_ecx m promoted
    match r.1 with
    | .fatal msg => (.fatal msg, r.2)
    | .interpErr _ => (.reportedError, r.2 ++ [Event.reported])
    | .done mplace =>
      match const_validate_mplace m.vecx mplace m.staticMut promoted with
      | none => (.fatal validateProvMsg, r.2)
      | some v =>
        match v.1 with
        | .error rep => (.ubError rep, r.2 ++ [Event.validated])
        | .ok _ =>
          match make_result mplace with
          | none => (.fatal makeResultProvMsg, r.2 ++ [Event.validated])
          | some aid => (.success aid, r.2 ++ [Event.validated])

/-- Helper: a successful body evaluation emits exactly the allocation event and
then the interning event, and its interning succeeded. -/
theorem eval_body_done_evs (m : Machine) (promoted : Bool) (ret : VPlace)
    (h : (eval_body_using_ecx m promoted).1 = .done ret) :
    (eval_body_using_ecx m promoted).2 =
      [Event.allocated (destKindFor (internKindFor promoted m.staticMut)),
       Event.interned (internKindFor promoted m.staticMut)] ∧
    m.internResult = .ok () := by
  unfold eval_body_using_ecx at h ⊢
  cases hik : internKindFor promoted m.staticMut <;>
    (simp only [hik] at h ⊢; repeat' split at h)
  all_goals simp_all
  all_goals (rw [if_neg (by rintro ⟨h1, h2⟩; simp_all)])

/-- Helper: a body evaluation that propagates an interpreter error has not reached
the interning event. -/
theorem eval_body_interp_evs (m : Machine) (promoted : Bool) (e : IErr)
    (h : (eval_body_using_ecx m promoted).1 = .interpErr e) :
    (eval_body_using_ecx m promoted).2 = [] ∨
    (eval_body_using_ecx m promoted).2 =
      [Event.allocated (destKindFor (internKindFor promoted m.staticMut))] := by
  unfold eval_body_using_ecx at h ⊢
  cases hik : internKindFor promoted m.staticMut <;>
    (simp only [hik] at h ⊢; repeat' split at h)
  all_goals simp_all
  all_goals (rw [if_neg (by rintro ⟨h1, h2⟩; simp_all)])
  all_goals simp

/-- Helper: a body evaluation stopped by an assertion emits no events. -/
theorem eval_body_fatal_evs (m : Machine) (promoted : Bool) (msg : String)
    (h : (eval_body_using_ecx m promoted).1 = .fatal msg) :
    (eval_body_using_ecx m promoted).2 = [] := by
  unfold eval_body_using_ecx at h ⊢
  cases hik : internKindFor promoted m.staticMut <;>
    (simp only [hik] at h ⊢; repeat' split at h)
  all_goals simp_all
  all_goals (rw [if_neg (by rintro ⟨h1, h2⟩; simp_all)])

/-- Helper: the driver on a body that failed to load. -/
theorem eval_in_interpreter_load_error (m : Machine) (promoted : Bool) (e : IErr)
    (hl : m.loadMir = .error e) :
    eval_in_interpreter m promoted = (.reportedError, [Event.reported]) := by
  unfold eval_in_interpreter
  simp [hl]

/-- Helper: the driver on a body evaluation stopped by an assertion. -/
theorem eval_in_interpreter_fatal (m : Machine) (promoted : Bool) (msg : String)
    (u : Unit) (hl : m.loadMir = .ok u)
    (hb : (eval_body_using_ecx m promoted).1 = .fatal msg) :
    eval_in_interpreter m promoted =
      (.fatal msg, (eval_body_using_ecx m promoted).2) := by
  unfold eval_in_interpreter
  simp [hl, hb]

/-- Helper: the driver on a body evaluation that propagated an interpreter
error. -/
theorem eval_in_interpreter_interp_error (m : Machine) (promoted : Bool)
    (u : Unit) (e : IErr) (hl : m.loadMir = .ok u)
    (hb : (eval_body_using_ecx m promoted).1 = .interpErr e) :
    eval_in_interpreter m promoted =
      (.reportedError, (eval_body_using_ecx m promoted).2 ++ [Event.reported]) := by
  unfold eval_in_interpreter
  simp [hl, hb]

/-- Helper: the driver on a successful body evaluation. -/
theorem eval_in_interpreter_done (m : Machine) (promoted : Bool) (mplace : VPlace)
    (u : Unit) (hl : m.loadMir = .ok u)
    (hb : (eval_body_using_ecx m promoted).1 = .done mplace) :
    eval_in_interpreter m promoted =
      (match const_validate_mplace m.vecx mplace m.staticMut promoted with
       | none => (.fatal validateProvMsg, (eval_body_using_ecx m promoted).2)
       | some v =>
         match v.1 with
         | .error rep =>
           (.ubError rep, (eval_body_using_ecx m promoted).2 ++ [Event.validated])
         | .ok _ =>
           match make_result mplace with
           | none =>
             (.fatal makeResultProvMsg,
              (eval_body_using_ecx m promoted).2 ++ [Event.validated])
           | some aid =>
             (.success aid,
              (eval_body_using_ecx m promoted).2 ++ [Event.validated])) := by
  unfold eval_in_interpreter
  simp [hl, hb]

/-- C5: if the run validates at all, then the event trace is exactly allocation,
then recursive interning, then validation, so interning completed before any
validation and validation ran only on a result whose interning succeeded; an
interpreter error during stepping or interning, or a body that failed to load, is
reported immediately and validation never runs. -/
theorem eval_interning_before_validation (m : Machine) (promoted : Bool) :
    (hasValidated (eval_in_interpreter m promoted).2 = true →
      (eval_in_interpreter m promoted).2 =
        [Event.allocated (destKindFor (internKindFor promoted m.staticMut)),
         Event.interned (internKindFor promoted m.staticMut),
         Event.validated] ∧
      m.internResult = .ok ()) ∧
    (∀ e, (eval_body_using_ecx m promoted).1 = .interpErr e →
      (eval_in_interpreter m promoted).1 = .reportedError ∧
      hasValidated (eval_in_interpreter m promoted).2 = false) ∧
    (∀ e, m.loadMir = .error e →
      (eval_in_interpreter m promoted).1 = .reportedError ∧
      hasValidated (eval_in_interpreter m promoted).2 = false) := by
  refine ⟨?_, ?_, ?_⟩
  · intro hv
    cases hl : m.loadMir with
    | error e =>
      rw [eval_in_interpreter_load_error m promoted e hl] at hv
      simp [hasValidated] at hv
    | ok u =>
      cases hb : (eval_body_using_ecx m promoted).1 with
      | fatal msg =>
        have he := eval_body_fatal_evs m promoted msg hb
        rw [eval_in_interpreter_fatal m promoted msg u hl hb] at hv
        simp [he, hasValidated] at hv
      | interpErr e =>
        have he := eval_body_interp_evs m promoted e hb
        rw [eval_in_interpreter_interp_error m promoted u e hl hb] at hv
        rcases he with he | he <;> simp [he, hasValidated] at hv
      | done mplace =>
        have he := eval_body_done_evs m promoted mplace hb
        have hrw := eval_in_interpreter_done m promoted mplace u hl hb
        rw [hrw]
        cases hcv : const_validate_mplace m.vecx mplace m.staticMut promoted with
        | none =>
          rw [hrw] at hv
          simp only [hcv] at hv
          simp [he.1, hasValidated] at hv
        | some v =>
          simp only [hcv]
          cases hvres : v.1 with
          | error rep => simp [he.1, he.2]
          | ok u2 =>
            cases hmk : make_result mplace with
            | none => simp [he.1, he.2]
            | some aid => simp [he.1, he.2]
  · intro e hb
    cases hl : m.loadMir with
    | error e2 =>
      rw [eval_in_interpreter_load_error m promoted e2 hl]
      simp [hasValidated]
    | ok u =>
      have he := eval_body_interp_evs m promoted e hb
      rw [eval_in_interpreter_interp_error m promoted u e hl hb]
      rcases he with he | he <;> simp [he, hasValidated]
  · intro e hl
    rw [eval_in_interpreter_load_error m promoted e hl]
    simp [hasValidated]

/-- A machine whose run completes successfully, used as a test value. -/
def mach0 : Machine :=
  { loadMir := .ok (), defKindOk := true, staticMut := none, layoutOf := .ok (),
    layoutSized := true, createStaticAlloc := .ok okRoot,
    allocateStack := .ok okRoot, pushFrame := .ok (), storageLive := .ok (),
    steps := [.ok true, .ok false], internResult := .ok (), vecx := vecx0 }

/-- Witness for C5: the successful concrete run allocates, interns and only then
validates. -/
theorem eval_interning_before_validation_witness :
    (eval_in_interpreter mach0 false).2 =
      [Event.allocated .stack, Event.interned .constant, Event.validated] := by
  have hv : hasValidated (eval_in_interpreter mach0 false).2 = true := by
    simp [eval_in_interpreter, eval_body_using_ecx, mach0, runStepLoop,
      internKindFor, destKindFor, const_validate_mplace, validateLoop, modeFor,
      const_validate_operand, okRoot, VPlace.ptr, VPlace.invalidValue,
      VPlace.children, make_result, hasValidated]
  have h := (eval_interning_before_validation mach0 false).1 hv
  simpa [mach0, internKindFor, destKindFor] using h.1

/-- C6: the intern kind is Promoted whenever the key has a promoted ordinal, even
inside a static, and then the destination is stack memory; for the body of a static
it is Static with the static mutability and the destination is a dedicated static
allocation with that mutability; otherwise it is Constant with a stack destination;
and the destination event of any run is derived from exactly this choice. -/
theorem intern_kind_and_destination (smut : Option Mutability) (mu : Mutability) :
    internKindFor true smut = .promoted ∧
    destKindFor (internKindFor true smut) = .stack ∧
    internKindFor false (some mu) = .staticKind mu ∧
    destKindFor (internKindFor false (some mu)) = .staticAlloc mu ∧
    internKindFor false none = .constant ∧
    destKindFor (internKindFor false none) = .stack ∧
    (∀ (m : Machine) (promoted : Bool),
      (eval_body_using_ecx m promoted).2 = [] ∨
      (eval_body_using_ecx m promoted).2.head? =
        some (.allocated (destKindFor (internKindFor promoted m.staticMut)))) := by
  refine ⟨?_, ?_, rfl, rfl, rfl, rfl, ?_⟩
  · cases smut <;> rfl
  · cases smut <;> rfl
  · intro m promoted
    unfold eval_body_using_ecx
    cases hik : internKindFor promoted m.staticMut <;>
      (simp only [hik]; repeat' split)
    all_goals simp

/-- C10: when the destination allocators hand back places whose pointers carry
provenance, the place a successful evaluation returns has provenance, so the
allocation-id extraction at make_result and at the start of validation never hits
the fatal unwrap; and at the op_to_const boundary a provenance-free place is
accepted only for a zero-sized type, while for a non-zero-sized type it is the
fatal fake-place unwrap. -/
theorem result_provenance_present (m : Machine) (promoted : Bool)
    (hA : ∀ p, m.allocateStack = .ok p → p.ptr.prov.isSome = true)
    (hS : ∀ p, m.createStaticAlloc = .ok p → p.ptr.prov.isSome = true) :
    (∀ ret, (eval_body_using_ecx m promoted).1 = .done ret →
      ret.ptr.prov.isSome = true ∧
      const_validate_mplace m.vecx ret m.staticMut promoted ≠ none ∧
      make_result ret ≠ none) ∧
    ((eval_in_interpreter m promoted).1 ≠ .fatal validateProvMsg ∧
      (eval_in_interpreter m promoted).1 ≠ .fatal makeResultProvMsg) ∧
    (∀ (ecx : Ecx) (l : Layout) (off : Nat) (fd : Bool), l.is_zst = true →
      op_to_const ecx { layout := l, op := .indirect { prov := none, offset := off } }
        fd = .ok .zeroSized) ∧
    (∀ (ecx : Ecx) (l : Layout) (off : Nat) (fd : Bool), l.is_zst = false →
      l.abi = .aggregate →
      op_to_const ecx { layout := l, op := .indirect { prov := none, offset := off } }
        fd = .error (.bug fakePlaceMsg)) := by
  have hdone : ∀ ret, (eval_body_using_ecx m promoted).1 = .done ret →
      ret.ptr.prov.isSome = true := by
    intro ret h
    rcases eval_body_done_inv m promoted ret h with hc | hc
    · exact hS ret hc
    · exact hA ret hc
  refine ⟨?_, ?_, ?_, ?_⟩
  · intro ret h
    have hps := hdone ret h
    obtain ⟨aid, haid⟩ := Option.isSome_iff_exists.mp hps
    refine ⟨hps, ?_, ?_⟩
    · simp [const_validate_mplace, haid]
    · simp [make_result, haid]
  · cases hl : m.loadMir with
    | error e =>
      rw [eval_in_interpreter_load_error m promoted e hl]
      exact ⟨by simp, by simp⟩
    | ok u =>
      cases hb : (eval_body_using_ecx m promoted).1 with
      | fatal msg =>
        rw [eval_in_interpreter_fatal m promoted msg u hl hb]
        rcases eval_body_fatal_inv m promoted msg hb with h | h <;> subst h <;>
          exact ⟨by simp [unexpectedDefKindMsg, unsizedLayoutMsg, validateProvMsg],
            by simp [unexpectedDefKindMsg, unsizedLayoutMsg, makeResultProvMsg]⟩
      | interpErr e =>
        rw [eval_in_interpreter_interp_error m promoted u e hl hb]
        exact ⟨by simp, by simp⟩
      | done mplace =>
        have hps := hdone mplace hb
        obtain ⟨aid, haid⟩ := Option.isSome_iff_exists.mp hps
        have hv : const_validate_mplace m.vecx mplace m.staticMut promoted =
            some (validateLoop m.vecx m.staticMut promoted aid [mplace] false) := by
          simp [const_validate_mplace, haid]
        rw [eval_in_interpreter_done m promoted mplace u hl hb]
        simp only [hv]
        cases hres :
            (validateLoop m.vecx m.staticMut promoted aid [mplace] false).1 with
        | error rep => simp [hres]
        | ok u2 =>
          have hmk : make_result mplace = some aid := haid
          simp [hres, hmk]
  · intro ecx l off fd hz
    simp [op_to_const, hz]
  · intro ecx l off fd hz habi
    simp [op_to_const, opToConstImmediate, OpTy.as_mplace_or_imm, hz, habi]

/-- Witness for C10: the concrete successful machine never hits the provenance
unwraps. -/
theorem result_provenance_present_witness :
    (eval_in_interpreter mach0 false).1 ≠ .fatal validateProvMsg ∧
      (eval_in_interpreter mach0 false).1 ≠ .fatal makeResultProvMsg :=
  (result_provenance_present mach0 false
    (by intro p hp
        simp [mach0] at hp
        simp [← hp, okRoot, VPlace.ptr])
    (by intro p hp
        simp [mach0] at hp
        simp [← hp, okRoot, VPlace.ptr])).2.1

/-- The message of the expect on raw_const_to_mplace in turn_into_const_value. -/
def rawConstMsg : String := "can only fail if layout computation failed"

/-- The message of the assertion that the portable-value query is not used for the
body of a static. -/
def staticQueryMsg : String :=
  "the eval_to_const_value_raw query should not be used for statics"

/-- turn_into_const_value from the source, lines 214 to 241: rebuild the place
from the computed allocation, where a failure is a fatal expect, assert that the
key does not name the body of a static unless promoted, and convert the place with
op_to_const in normal mode. -/
def turn_into_const_value (isStatic : Bool) (promoted : Bool) (ecx : Ecx)
    (rawMplace : Except IErr MPlaceTy) : Except Bug ConstValue :=
  match rawMplace with
  | .error _ => .error (.bug rawConstMsg)
  | .ok mplace =>
    if isStatic && !promoted then .error (.bug staticQueryMsg)
    else op_to_const ecx mplace.toOpTy false

/-- Whether a conversion outcome is a fatal bug rather than a value; the function
has no normal user-facing error channel at all. -/
def isBugErr : Except Bug ConstValue → Bool
  | .error _ => true
  | .ok _ => false

/-- C8: requesting the body of a static, not promoted, through the portable-value
conversion always aborts with a fatal bug, never a user-facing error, which the
return type does not even offer, and never a constant value; when the place was
rebuilt successfully the bug is exactly the static-query assertion. -/
theorem turn_into_const_value_static_asserts (ecx : Ecx)
    (raw : Except IErr MPlaceTy) :
    isBugErr (turn_into_const_value true false ecx raw) = true ∧
    (∀ mp, raw = .ok mp →
      turn_into_const_value true false ecx raw = .error (.bug staticQueryMsg)) := by
  constructor
  · cases raw <;> rfl
  · intro mp h
    subst h
    rfl

/-- Witness for C8: the assertion fires at a concrete place. -/
theorem turn_into_const_value_static_asserts_witness :
    turn_into_const_value true false abEcx
      (.ok { ptr := { prov := some 5, offset := 0 }, layout := abLayout })
      = .error (.bug staticQueryMsg) :=
  (turn_into_const_value_static_asserts abEcx
    (.ok { ptr := { prov := some 5, offset := 0 }, layout := abLayout })).2
    { ptr := { prov := some 5, offset := 0 }, layout := abLayout } rfl

end CE
